import Mathlib

/-!
Verification of the BudgetMaster ledger and recurring-payment scheduling core.

The development shallowly embeds, in Lean, the parts of the code that the
verified properties are about:

* the calendar arithmetic performed through the JavaScript Date setters
  (setDate, setMonth, setFullYear), at calendar-day granularity;
* the server route handlers for creating and deleting transactions
  (server/index.js), including the primary-key and foreign-key constraints
  declared by initializeTables;
* the client-side ledger operations (src/contexts/AccountContext.tsx):
  payDebt, transferFunds, updateDebt, updateRecurringPayment,
  deleteRecurringPayment, addRecurringPayment;
* the dialog submit handlers that carry the validation logic
  (TransferDialog.handleSubmit, PayDebtDialog.handleSubmit);
* the two settle implementations (AccountsSection.handlePaymentPaid, which
  advances the stored payment in place, and AccountDetailDialog.handlePaymentPaid,
  which deletes and recreates the payment);
* the two projected-balance computations (the AccountsSection useEffect and
  the useProjectedBalance hook).

Currency amounts are modelled as exact rationals. Calendar dates are modelled
as (year, month, day) triples with months numbered 1 to 12; the JavaScript
Date API numbers months 0 to 11, which is a pure renaming.
-/

namespace Finance

/-! ### Calendar dates and the JavaScript Date arithmetic -/

/-- Gregorian leap-year rule, as implemented by the JavaScript Date object. -/
def isLeapYear (y : Nat) : Bool :=
  y % 4 == 0 && (y % 100 != 0 || y % 400 == 0)

/-- Number of days in month m (1 to 12) of year y. -/
def daysInMonth (y m : Nat) : Nat :=
  if m = 2 then (if isLeapYear y then 29 else 28)
  else if m = 4 ∨ m = 6 ∨ m = 9 ∨ m = 11 then 30
  else 31

/-- Calendar date. Months are numbered 1 to 12 (the JavaScript API numbers
them 0 to 11; the shift is a pure renaming). -/
structure Date where
  year : Nat
  month : Nat
  day : Nat
deriving DecidableEq, Repr

/-- Proposition that a date names an actual calendar day. -/
def Date.Valid (d : Date) : Prop :=
  1 ≤ d.month ∧ d.month ≤ 12 ∧ 1 ≤ d.day ∧ d.day ≤ daysInMonth d.year d.month

instance (d : Date) : Decidable d.Valid := by
  unfold Date.Valid; infer_instance

/-- Successor calendar day, rolling over month and year boundaries.
The JavaScript call setDate(getDate() + 7) adds seven calendar days with
full normalisation; it is modelled as seven unit steps. -/
def nextDay (d : Date) : Date :=
  if d.day < daysInMonth d.year d.month then ⟨d.year, d.month, d.day + 1⟩
  else if d.month < 12 then ⟨d.year, d.month + 1, 1⟩
  else ⟨d.year + 1, 1, 1⟩

/-- Predecessor calendar day, rolling over month and year boundaries.
The server undo path calls setDate(getDate() - 7); it is modelled as seven
unit steps of this function. -/
def prevDay (d : Date) : Date :=
  if 2 ≤ d.day then ⟨d.year, d.month, d.day - 1⟩
  else if 2 ≤ d.month then ⟨d.year, d.month - 1, daysInMonth d.year (d.month - 1)⟩
  else ⟨d.year - 1, 12, 31⟩

/-- Add n calendar days. -/
def addDays : Nat → Date → Date
  | 0, d => d
  | n + 1, d => addDays n (nextDay d)

/-- Subtract n calendar days. -/
def subDays : Nat → Date → Date
  | 0, d => d
  | n + 1, d => subDays n (prevDay d)

/-- Normalisation performed by the JavaScript Date object when the day
component exceeds the length of the month: the excess days spill into the
following month (setMonth and setFullYear keep the day component unchanged
and then normalise). For day components up to 31 a single spill suffices,
since every month has at least 28 days. -/
def monthOverflow (y m day : Nat) : Date :=
  if day ≤ daysInMonth y m then ⟨y, m, day⟩
  else if m < 12 then ⟨y, m + 1, day - daysInMonth y m⟩
  else ⟨y + 1, 1, day - daysInMonth y m⟩

/-- Recurrence frequency of a recurring payment. -/
inductive Freq
  | weekly
  | monthly
  | yearly
deriving DecidableEq, Repr

/-- Schedule advancement used by both settle implementations
(getNextPaymentDate in AccountsSection.tsx, and the inline copy in
AccountDetailDialog): weekly is setDate(+7), monthly is setMonth(+1),
yearly is setFullYear(+1), each with JavaScript Date normalisation. -/
def getNextPaymentDate (frequency : Freq) (currentDate : Date) : Date :=
  match frequency with
  | .weekly => addDays 7 currentDate
  | .monthly =>
      if currentDate.month < 12 then
        monthOverflow currentDate.year (currentDate.month + 1) currentDate.day
      else
        monthOverflow (currentDate.year + 1) 1 currentDate.day
  | .yearly => monthOverflow (currentDate.year + 1) currentDate.month currentDate.day

/-- Schedule rollback performed by the DELETE /api/transactions/:id handler
when the deleted transaction is linked to a recurring payment: weekly is
setDate(-7), monthly is setMonth(-1), yearly is setFullYear(-1), each with
JavaScript Date normalisation. -/
def rollbackPaymentDate (frequency : Freq) (currentDate : Date) : Date :=
  match frequency with
  | .weekly => subDays 7 currentDate
  | .monthly =>
      if 2 ≤ currentDate.month then
        monthOverflow currentDate.year (currentDate.month - 1) currentDate.day
      else
        monthOverflow (currentDate.year - 1) 12 currentDate.day
  | .yearly => monthOverflow (currentDate.year - 1) currentDate.month currentDate.day

/-- Calendar-day comparison, mirroring comparison of JavaScript Date values
at day granularity. -/
def Date.le (a b : Date) : Bool :=
  if a.year < b.year then true
  else if b.year < a.year then false
  else if a.month < b.month then true
  else if b.month < a.month then false
  else decide (a.day ≤ b.day)

/-! ### Data model

Record types mirror the TypeScript interfaces of AccountContext.tsx and the
table columns of server/index.js. Fields that no verified operation reads or
writes (interestRate, apiKey, pieId, tradingResult, order, createdAt, apr,
minimumPayment, creditLimit, name and type of accounts and debts) are omitted
from the embedding; they ride along untouched in every operation considered
here. -/

/-- Transaction type union of AccountContext.tsx. -/
inductive TxType
  | income
  | expense
  | transfer
deriving DecidableEq, Repr

/-- Reset frequency of an account (projection window). -/
inductive ResetFreq
  | daily
  | weekly
  | monthly
deriving DecidableEq, Repr

structure Account where
  id : String
  balance : ℚ
  frequency : Option ResetFreq := none
  resetDay : Option Nat := none
deriving DecidableEq, Repr

structure Debt where
  id : String
  balance : ℚ
deriving DecidableEq, Repr

structure Transaction where
  id : String
  accountId : String
  amount : ℚ
  description : String
  category : String
  date : Date
  type : TxType
  recurringPaymentId : Option String := none
deriving DecidableEq, Repr

structure RecurringPayment where
  id : String
  name : String
  amount : ℚ
  frequency : Freq
  category : String
  type : TxType
  nextPaymentDate : Date
  accountId : String
deriving DecidableEq, Repr

/-- The stored data: the four tables created by initializeTables, which are
also the four entity lists held by AccountContext. -/
structure LedgerState where
  accounts : List Account
  debts : List Debt
  transactions : List Transaction
  recurringPayments : List RecurringPayment
deriving DecidableEq, Repr

/-- Result category of an operation: ok responses, the dialog-level
validation rejections (destructive toast plus early return), 404 responses,
and 500 responses from thrown errors. -/
inductive Outcome
  | ok
  | validationError
  | notFound
  | serverError
deriving DecidableEq, Repr

/-! ### Server-side ledger operations (server/index.js) -/

/-- The SQL statement UPDATE accounts SET balance = balance + x WHERE id = a. -/
def applyBalanceChange (accountId : String) (change : ℚ) (accounts : List Account) :
    List Account :=
  accounts.map fun a => if a.id = accountId then { a with balance := a.balance + change } else a

/-- The INSERT INTO transactions statement, together with the constraints
declared by initializeTables: id is the primary key, account_id references
accounts(id), recurring_payment_id references recurring_payments(id). A
constraint violation makes the statement throw, which the route handler turns
into a 500 response with nothing persisted. -/
def insertTransaction (t : Transaction) (s : LedgerState) : Option LedgerState :=
  if s.transactions.any (fun u => u.id == t.id) then none
  else if !(s.accounts.any (fun a => a.id == t.accountId)) then none
  else match t.recurringPaymentId with
    | some rid =>
        if s.recurringPayments.any (fun p => p.id == rid) then
          some { s with transactions := s.transactions ++ [t] }
        else none
    | none => some { s with transactions := s.transactions ++ [t] }

/-- The write set executed inside BEGIN by the POST /api/transactions
handler: insert the transaction, then adjust the account balance by +amount
when the type is income and by -amount otherwise. This is the effect the
open database transaction holds when the handler reaches its response line;
postTransactionsHandler below models the handler itself, which never commits
this write set. -/
def createTransaction (t : Transaction) (s : LedgerState) : Outcome × LedgerState :=
  match insertTransaction t s with
  | none => (.serverError, s)
  | some s1 =>
      let balanceChange := if t.type = TxType.income then t.amount else -t.amount
      (.ok, { s1 with accounts := applyBalanceChange t.accountId balanceChange s1.accounts })

/-- The POST /api/transactions handler as written: it opens BEGIN, runs the
insert and the balance update inside the open transaction, and then evaluates
result.rows[0] although no variable named result is bound in the handler.
The ReferenceError is caught and answered with a 500; no COMMIT statement
exists on any path, so the write set is abandoned with the connection and the
committed state is unchanged. -/
def postTransactionsHandler (t : Transaction) (s : LedgerState) : Outcome × LedgerState :=
  let _uncommitted := createTransaction t s
  (.serverError, s)

/-- The DELETE /api/transactions/:id handler: look the transaction up (404
when absent), reverse its balance effect (income subtracts the amount,
expense adds it back, any other type leaves the balance alone), roll the
linked recurring payment back by one period when the transaction carries a
recurring_payment_id and that payment exists, delete the transaction row,
and commit. -/
def deleteTransaction (tid : String) (s : LedgerState) : Outcome × LedgerState :=
  match s.transactions.find? (fun t => t.id == tid) with
  | none => (.notFound, s)
  | some tx =>
      let accounts :=
        match tx.type with
        | .income => applyBalanceChange tx.accountId (-tx.amount) s.accounts
        | .expense => applyBalanceChange tx.accountId tx.amount s.accounts
        | .transfer => s.accounts
      let recurringPayments :=
        match tx.recurringPaymentId with
        | none => s.recurringPayments
        | some rid =>
            match s.recurringPayments.find? (fun p => p.id == rid) with
            | none => s.recurringPayments
            | some rp =>
                s.recurringPayments.map fun p =>
                  if p.id = rid then
                    { p with nextPaymentDate := rollbackPaymentDate rp.frequency rp.nextPaymentDate }
                  else p
      (.ok,
        { s with
          accounts := accounts
          recurringPayments := recurringPayments
          transactions := s.transactions.filter (fun t => t.id != tid) })

/-- The PUT /api/recurring-payments/:id route invoked by the client-side
updateRecurringPayment(id, nextPaymentDate): the handler merges the stored
row with the supplied fields, so only next_payment_date changes; 404 when
the payment does not exist. -/
def updateRecurringPayment (pid : String) (newDate : Date) (s : LedgerState) :
    Outcome × LedgerState :=
  if s.recurringPayments.any (fun p => p.id == pid) then
    (.ok,
      { s with
        recurringPayments :=
          s.recurringPayments.map fun p =>
            if p.id = pid then { p with nextPaymentDate := newDate } else p })
  else (.notFound, s)

/-- The DELETE /api/recurring-payments/:id route: delete the row; the
foreign key on transactions.recurring_payment_id is declared ON DELETE SET
NULL, clearing the back references. -/
def deleteRecurringPayment (pid : String) (s : LedgerState) : LedgerState :=
  { s with
    recurringPayments := s.recurringPayments.filter (fun p => p.id != pid)
    transactions :=
      s.transactions.map fun t =>
        if t.recurringPaymentId = some pid then { t with recurringPaymentId := none } else t }

/-- The client-side addRecurringPayment: generate a fresh id and insert the
payment through POST /api/recurring-payments (id is the primary key, so a
collision makes the insert throw). -/
def addRecurringPayment (newId : String) (p : RecurringPayment) (s : LedgerState) :
    Outcome × LedgerState :=
  if s.recurringPayments.any (fun q => q.id == newId) then (.serverError, s)
  else (.ok, { s with recurringPayments := s.recurringPayments ++ [{ p with id := newId }] })

/-- The client-side updateDebt(debtId, balance) as used by payDebt: persist
the new balance of the matching debt, leaving every other field alone. -/
def updateDebt (debtId : String) (newBalance : ℚ) (s : LedgerState) : LedgerState :=
  { s with
    debts := s.debts.map fun d => if d.id = debtId then { d with balance := newBalance } else d }

/-! ### Compound operations (src/contexts/AccountContext.tsx)

The client addTransaction generates a random transaction id and posts the
transaction; the id is passed here as an explicit argument. Its persistent
effect is the createTransaction write set. -/

/-- payDebt(debtId, accountId, amount) from AccountContext.tsx: first add an
expense transaction on the account (category Debt Payment), then, only when
the debt is found in the loaded debt list, write back
max(0, debt.balance - amount) as its new balance. A failure thrown by the
transaction step is caught, recorded and rethrown before the debt is
touched. There is no validation of amount against either balance. -/
def payDebt (txnId : String) (today : Date) (debtId accountId : String) (amount : ℚ)
    (s : LedgerState) : Outcome × LedgerState :=
  match createTransaction
      { id := txnId, accountId := accountId, amount := amount,
        description := "Debt payment", category := "Debt Payment",
        date := today, type := .expense, recurringPaymentId := none } s with
  | (.ok, s1) =>
      (match s1.debts.find? (fun d => d.id == debtId) with
       | some debt => (.ok, updateDebt debtId (max 0 (debt.balance - amount)) s1)
       | none => (.ok, s1))
  | (e, _) => (e, s)

/-- transferFunds(fromAccountId, toAccountId, amount, description) from
AccountContext.tsx: add an expense transaction on the source account, then an
income transaction on the destination account. No check of any kind is
performed here; a failure of the first leg aborts before the second, and a
failure of the second leaves the first in place. -/
def transferFunds (id1 id2 : String) (today : Date) (fromAccountId toAccountId : String)
    (amount : ℚ) (description : String) (s : LedgerState) : Outcome × LedgerState :=
  match createTransaction
      { id := id1, accountId := fromAccountId, amount := amount,
        description := "Transfer to account: " ++ description, category := "Transfer",
        date := today, type := .expense, recurringPaymentId := none } s with
  | (.ok, s1) =>
      (match createTransaction
          { id := id2, accountId := toAccountId, amount := amount,
            description := "Transfer from account: " ++ description, category := "Transfer",
            date := today, type := .income, recurringPaymentId := none } s1 with
       | (.ok, s2) => (.ok, s2)
       | (e, _) => (e, s1))
  | (e, _) => (e, s)

namespace TransferDialog

/-- handleSubmit of TransferDialog.tsx, after form parsing: reject a
self-transfer, reject when the source account is found and its balance is
below the amount (when the source account is not found this check is
skipped), and otherwise call transferFunds. The rejections show a
destructive toast and return without touching any state. -/
def handleSubmit (id1 id2 : String) (today : Date) (fromAccount toAccount : String)
    (amount : ℚ) (description : String) (s : LedgerState) : Outcome × LedgerState :=
  if fromAccount = toAccount then (.validationError, s)
  else
    match s.accounts.find? (fun a => a.id == fromAccount) with
    | some acc =>
        if acc.balance < amount then (.validationError, s)
        else transferFunds id1 id2 today fromAccount toAccount amount description s
    | none => transferFunds id1 id2 today fromAccount toAccount amount description s

end TransferDialog

namespace PayDebtDialog

/-- handleSubmit of PayDebtDialog.tsx, after form parsing: reject when the
selected account is not found, when the amount is not positive, when the
amount exceeds the account balance, or when the debt is found and the amount
exceeds the debt balance; otherwise call payDebt. The rejections show a
destructive toast and return without touching any state. -/
def handleSubmit (txnId : String) (today : Date) (debtId accountId : String) (amount : ℚ)
    (s : LedgerState) : Outcome × LedgerState :=
  match s.accounts.find? (fun a => a.id == accountId) with
  | none => (.validationError, s)
  | some selectedAccount =>
      if amount ≤ 0 then (.validationError, s)
      else if selectedAccount.balance < amount then (.validationError, s)
      else
        match s.debts.find? (fun d => d.id == debtId) with
        | some selectedDebt =>
            if selectedDebt.balance < amount then (.validationError, s)
            else payDebt txnId today debtId accountId amount s
        | none => payDebt txnId today debtId accountId amount s

end PayDebtDialog

/-! ### The two settle implementations -/

namespace AccountsSection

/-- handlePaymentPaid of AccountsSection.tsx (in-place variant): add a
transaction carrying the amount, name, category and type of the payment and
recurringPaymentId = payment.id, then advance the stored nextPaymentDate of
that payment by one period via updateRecurringPayment. The transaction call
is not awaited, so the date update runs whatever its outcome. -/
def handlePaymentPaid (txnId : String) (today : Date) (payment : RecurringPayment)
    (s : LedgerState) : LedgerState :=
  let s1 := (createTransaction
      { id := txnId, accountId := payment.accountId, amount := payment.amount,
        description := payment.name, category := payment.category,
        date := today, type := payment.type, recurringPaymentId := some payment.id } s).2
  (updateRecurringPayment payment.id
      (getNextPaymentDate payment.frequency payment.nextPaymentDate) s1).2

end AccountsSection

namespace AccountDetailDialog

/-- handlePaymentPaid of AccountDetailDialog.tsx (recreate variant): add a
transaction whose type is hardcoded to expense and which carries no
recurringPaymentId link, delete the recurring payment, and insert a fresh
payment under a new random id with the advanced date. -/
def handlePaymentPaid (txnId newId : String) (today : Date) (payment : RecurringPayment)
    (s : LedgerState) : LedgerState :=
  let s1 := (createTransaction
      { id := txnId, accountId := payment.accountId, amount := payment.amount,
        description := payment.name, category := payment.category,
        date := today, type := .expense, recurringPaymentId := none } s).2
  let s2 := deleteRecurringPayment payment.id s1
  let nextDate := getNextPaymentDate payment.frequency payment.nextPaymentDate
  (addRecurringPayment newId { payment with nextPaymentDate := nextDate } s2).2

end AccountDetailDialog

/-! ### Projected balances

Both computations take the projection boundary (endDate, derived from the
reset frequency and the clock) as an input; the claims under verification
concern which payments are counted and how they are combined, not the
boundary derivation, which depends on the wall clock. -/

namespace AccountsSection

/-- Projected balance of one account as computed by the useEffect of
AccountsSection.tsx: without a reset frequency the projection is the
balance; otherwise every loaded recurring payment due on or before the
boundary is accumulated into income or expenses, with no filter on the
owning account. -/
def projectedBalance (account : Account) (recurringPayments : List RecurringPayment)
    (endDate : Date) : ℚ :=
  match account.frequency with
  | none => account.balance
  | some _ =>
      let ie := recurringPayments.foldl
        (fun (ie : ℚ × ℚ) payment =>
          if Date.le payment.nextPaymentDate endDate then
            (if payment.type == TxType.income then (ie.1 + payment.amount, ie.2)
             else (ie.1, ie.2 + payment.amount))
          else ie)
        (0, 0)
      account.balance + ie.1 - ie.2

end AccountsSection

/-- Projected balance as computed by the useProjectedBalance hook of
ProjectedBalanceCalculator.tsx: identical to the AccountsSection
computation except that payments of other accounts are skipped. -/
def useProjectedBalance (account : Account) (recurringPayments : List RecurringPayment)
    (endDate : Date) : ℚ :=
  match account.frequency with
  | none => account.balance
  | some _ =>
      let ie := recurringPayments.foldl
        (fun (ie : ℚ × ℚ) payment =>
          if payment.accountId != account.id then ie
          else if Date.le payment.nextPaymentDate endDate then
            (if payment.type == TxType.income then (ie.1 + payment.amount, ie.2)
             else (ie.1, ie.2 + payment.amount))
          else ie)
        (0, 0)
      account.balance + ie.1 - ie.2

/-! ### Specification-level definitions

These definitions transcribe the wording of the specification sentences, to
be compared with the code-derived computations above. -/

/-- Amount a single transaction contributes to the sum, for a given account
and transaction type. -/
def contrib (accountId : String) (ty : TxType) (t : Transaction) : ℚ :=
  if t.accountId = accountId ∧ t.type = ty then t.amount else 0

/-- Sum of the amounts of the transactions of the given type on the given
account, over the currently stored (undeleted) transactions. -/
def typeSum (accountId : String) (ty : TxType) (txns : List Transaction) : ℚ :=
  (txns.map (contrib accountId ty)).sum

/-- Balance invariant stated by the specification: every stored account
balance equals the opening balance plus the income sum minus the expense sum
over the currently stored transactions of that account. -/
def BalanceInvariant (opening : String → ℚ) (s : LedgerState) : Prop :=
  ∀ a ∈ s.accounts,
    a.balance = opening a.id + typeSum a.id .income s.transactions
      - typeSum a.id .expense s.transactions

/-- One call of the ledger mutators the balance invariant quantifies over. -/
inductive LedgerOp
  | createTx (t : Transaction)
  | deleteTx (tid : String)
deriving DecidableEq, Repr

/-- Committed effect of one ledger call. -/
def applyOp (op : LedgerOp) (s : LedgerState) : LedgerState :=
  match op with
  | .createTx t => (createTransaction t s).2
  | .deleteTx tid => (deleteTransaction tid s).2

/-- Committed effect of a sequence of ledger calls. -/
def applyOps (ops : List LedgerOp) (s : LedgerState) : LedgerState :=
  ops.foldl (fun s op => applyOp op s) s

/-- True when a create call carries one of the two signed transaction types
named by the balance-invariant sentence. -/
def opOnlyIncomeExpense : LedgerOp → Bool
  | .createTx t => t.type != TxType.transfer
  | .deleteTx _ => true

/-- Projected balance exactly as the specification words it: current balance
plus the amounts of income recurring payments minus the amounts of expense
recurring payments, counting only payments that belong to this account and
are due on or before the boundary. -/
def specProjectedBalance (account : Account) (recurringPayments : List RecurringPayment)
    (endDate : Date) : ℚ :=
  account.balance
    + (recurringPayments.map fun p =>
        if p.accountId = account.id ∧ Date.le p.nextPaymentDate endDate ∧ p.type = .income
        then p.amount else 0).sum
    - (recurringPayments.map fun p =>
        if p.accountId = account.id ∧ Date.le p.nextPaymentDate endDate ∧ p.type = .expense
        then p.amount else 0).sum

/-! ### Supporting lemmas: calendar arithmetic -/

theorem daysInMonth_ge (y m : Nat) : 28 ≤ daysInMonth y m := by
  unfold daysInMonth
  split
  · split <;> omega
  · split <;> omega

theorem nextDay_valid {d : Date} (h : d.Valid) : (nextDay d).Valid := by
  obtain ⟨y, m, day⟩ := d
  obtain ⟨h1, h2, h3, h4⟩ := h
  dsimp only at h1 h2 h3 h4
  have g1 := daysInMonth_ge y (m + 1)
  have g2 := daysInMonth_ge (y + 1) 1
  unfold nextDay Date.Valid
  dsimp only
  split
  · dsimp only; omega
  · split <;> (dsimp only; omega)

theorem prevDay_nextDay {d : Date} (h : d.Valid) : prevDay (nextDay d) = d := by
  obtain ⟨y, m, day⟩ := d
  obtain ⟨h1, h2, h3, h4⟩ := h
  dsimp only at h1 h2 h3 h4
  unfold nextDay
  dsimp only
  by_cases hd : day < daysInMonth y m
  · rw [if_pos hd]
    unfold prevDay
    dsimp only
    rw [if_pos (by omega : 2 ≤ day + 1)]
    simp
  · by_cases hm : m < 12
    · rw [if_neg hd, if_pos hm]
      unfold prevDay
      dsimp only
      rw [if_neg (by omega : ¬ 2 ≤ 1), if_pos (by omega : 2 ≤ m + 1)]
      simp only [Nat.add_sub_cancel, Date.mk.injEq, true_and]
      omega
    · rw [if_neg hd, if_neg hm]
      unfold prevDay
      dsimp only
      rw [if_neg (by omega : ¬ 2 ≤ 1), if_neg (by omega : ¬ 2 ≤ 1)]
      have hm12 : m = 12 := by omega
      subst hm12
      have h31 : daysInMonth y 12 = 31 := by unfold daysInMonth; norm_num
      simp only [Nat.add_sub_cancel, Date.mk.injEq, true_and]
      omega

theorem addDays_nextDay (n : Nat) (d : Date) : addDays n (nextDay d) = nextDay (addDays n d) := by
  induction n generalizing d with
  | zero => rfl
  | succ n ih =>
    show addDays n (nextDay (nextDay d)) = nextDay (addDays n (nextDay d))
    exact ih (nextDay d)

theorem addDays_valid {d : Date} (n : Nat) (h : d.Valid) : (addDays n d).Valid := by
  induction n generalizing d with
  | zero => exact h
  | succ n ih => exact ih (nextDay_valid h)

theorem subDays_addDays {d : Date} (n : Nat) (h : d.Valid) : subDays n (addDays n d) = d := by
  induction n generalizing d with
  | zero => rfl
  | succ n ih =>
    have h1 : addDays (n + 1) d = nextDay (addDays n d) := by
      show addDays n (nextDay d) = _
      exact addDays_nextDay n d
    rw [h1]
    show subDays n (prevDay (nextDay (addDays n d))) = d
    rw [prevDay_nextDay (addDays_valid n h)]
    exact ih h

theorem monthOverflow_of_le {y m day : Nat} (h : day ≤ daysInMonth y m) :
    monthOverflow y m day = ⟨y, m, day⟩ := by
  unfold monthOverflow; rw [if_pos h]

/-! ### Supporting lemmas: lists and sums -/

theorem typeSum_nil (accId : String) (ty : TxType) : typeSum accId ty [] = 0 := rfl

theorem typeSum_cons (accId : String) (ty : TxType) (t : Transaction) (l : List Transaction) :
    typeSum accId ty (t :: l) = contrib accId ty t + typeSum accId ty l := by
  simp [typeSum]

theorem typeSum_append_single (accId : String) (ty : TxType) (l : List Transaction)
    (t : Transaction) :
    typeSum accId ty (l ++ [t]) = typeSum accId ty l + contrib accId ty t := by
  simp [typeSum]

theorem typeSum_filter_of_find? (accId : String) (ty : TxType) (tid : String)
    (l : List Transaction) (tx : Transaction)
    (hnd : (l.map Transaction.id).Nodup)
    (hf : l.find? (fun t => t.id == tid) = some tx) :
    typeSum accId ty (l.filter (fun t => t.id != tid))
      = typeSum accId ty l - contrib accId ty tx := by
  induction l with
  | nil => simp at hf
  | cons a l ih =>
    simp only [List.map_cons, List.nodup_cons] at hnd
    obtain ⟨ha, hnd⟩ := hnd
    by_cases h : a.id = tid
    · rw [List.find?_cons_of_pos _ (by simp [h])] at hf
      injection hf with hf
      subst hf
      rw [List.filter_cons_of_neg (by simp [h])]
      have hrest : l.filter (fun t => t.id != tid) = l := by
        refine List.filter_eq_self.mpr ?_
        intro u hu
        have : u.id ≠ tid := by
          intro hc
          exact ha (by rw [h, ← hc]; exact List.mem_map_of_mem Transaction.id hu)
        simp [this]
      rw [hrest, typeSum_cons]
      ring
    · rw [List.find?_cons_of_neg _ (by simp [h])] at hf
      rw [List.filter_cons_of_pos (by simp [h]), typeSum_cons, typeSum_cons, ih hnd hf]
      ring

/-- Updating by key with a key-preserving function commutes with lookup by
that key. -/
theorem find?_map_update {α : Type} (idf : α → String) (key : String) (g : α → α)
    (hg : ∀ p, idf (g p) = idf p) (l : List α) :
    (l.map fun p => if idf p = key then g p else p).find? (fun p => idf p == key)
      = (l.find? (fun p => idf p == key)).map g := by
  induction l with
  | nil => rfl
  | cons a l ih =>
    by_cases h : idf a = key
    · simp only [List.map_cons, if_pos h]
      rw [List.find?_cons_of_pos _ (by simp [hg, h]),
        List.find?_cons_of_pos _ (by simp [h])]
      rfl
    · simp only [List.map_cons, if_neg h]
      rw [List.find?_cons_of_neg _ (by simp [h]),
        List.find?_cons_of_neg _ (by simp [h])]
      exact ih

theorem applyBalanceChange_cancel (accountId : String) (c1 c2 : ℚ)
    (h : c1 + c2 = 0) (accounts : List Account) :
    applyBalanceChange accountId c2 (applyBalanceChange accountId c1 accounts) = accounts := by
  unfold applyBalanceChange
  rw [List.map_map]
  have hpt : ∀ a ∈ accounts,
      ((fun a : Account => if a.id = accountId then { a with balance := a.balance + c2 } else a) ∘
        (fun a : Account => if a.id = accountId then { a with balance := a.balance + c1 } else a)) a
        = a := by
    intro a _
    obtain ⟨aid, abal, afreq, ard⟩ := a
    by_cases ha : aid = accountId
    · simp only [Function.comp_apply, ha, if_pos]
      simp only [Account.mk.injEq, true_and, and_true]
      linarith
    · simp only [Function.comp_apply, if_neg ha]
  calc List.map _ accounts = List.map id accounts := List.map_congr_left hpt
    _ = accounts := List.map_id accounts

/-! ### Supporting lemmas: the balance invariant is inductive -/

theorem insertTransaction_eq_some {t : Transaction} {s s1 : LedgerState}
    (h : insertTransaction t s = some s1) :
    s1 = { s with transactions := s.transactions ++ [t] }
      ∧ ∀ u ∈ s.transactions, u.id ≠ t.id := by
  unfold insertTransaction at h
  by_cases h1 : s.transactions.any (fun u => u.id == t.id)
  · rw [if_pos h1] at h
    exact absurd h (by simp)
  · rw [if_neg h1] at h
    have hfresh : ∀ u ∈ s.transactions, u.id ≠ t.id := by
      intro u hu hc
      refine h1 ?_
      simp only [List.any_eq_true, beq_iff_eq]
      exact ⟨u, hu, hc⟩
    refine ⟨?_, hfresh⟩
    by_cases h2 : s.accounts.any (fun a => a.id == t.accountId)
    · rw [if_neg (by simp [h2])] at h
      cases hrp : t.recurringPaymentId with
      | some rid =>
        rw [hrp] at h
        dsimp only at h
        by_cases h3 : s.recurringPayments.any (fun p => p.id == rid)
        · rw [if_pos h3] at h
          injection h with h
          exact h.symm
        · rw [if_neg h3] at h
          exact absurd h (by simp)
      | none =>
        rw [hrp] at h
        dsimp only at h
        injection h with h
        exact h.symm
    · rw [if_pos (by simp [h2])] at h
      exact absurd h (by simp)

theorem createTransaction_preserves (opening : String → ℚ) (t : Transaction) (s : LedgerState)
    (hty : t.type ≠ TxType.transfer)
    (hInv : BalanceInvariant opening s)
    (hnd : (s.transactions.map Transaction.id).Nodup) :
    BalanceInvariant opening (createTransaction t s).2
      ∧ ((createTransaction t s).2.transactions.map Transaction.id).Nodup := by
  unfold createTransaction
  cases hins : insertTransaction t s with
  | none => exact ⟨hInv, hnd⟩
  | some s1 =>
    obtain ⟨hs1, hfresh⟩ := insertTransaction_eq_some hins
    subst hs1
    constructor
    · intro a' ha'
      dsimp only [BalanceInvariant] at hInv ⊢
      dsimp only at ha' ⊢
      unfold applyBalanceChange at ha'
      rw [List.mem_map] at ha'
      obtain ⟨a, ha, rfl⟩ := ha'
      have hbase := hInv a ha
      by_cases hid : a.id = t.accountId
      · rw [if_pos hid]
        dsimp only
        rw [typeSum_append_single, typeSum_append_single]
        cases htt : t.type with
        | transfer => exact absurd htt hty
        | income =>
          have hci : contrib a.id TxType.income t = t.amount := by
            unfold contrib; rw [if_pos ⟨hid.symm, htt⟩]
          have hce : contrib a.id TxType.expense t = 0 := by
            unfold contrib; rw [if_neg (by simp [htt])]
          rw [hci, hce]
          simp only [htt, if_pos]
          linarith [hbase]
        | expense =>
          have hci : contrib a.id TxType.income t = 0 := by
            unfold contrib; rw [if_neg (by simp [htt])]
          have hce : contrib a.id TxType.expense t = t.amount := by
            unfold contrib; rw [if_pos ⟨hid.symm, htt⟩]
          rw [hci, hce]
          rw [if_neg (by simp [htt])]
          linarith [hbase]
      · rw [if_neg hid]
        rw [typeSum_append_single, typeSum_append_single]
        have hci : contrib a.id TxType.income t = 0 := by
          unfold contrib; rw [if_neg (by intro hx; exact hid hx.1.symm)]
        have hce : contrib a.id TxType.expense t = 0 := by
          unfold contrib; rw [if_neg (by intro hx; exact hid hx.1.symm)]
        rw [hci, hce]
        linarith [hbase]
    · dsimp only
      rw [List.map_append]
      refine List.Nodup.append hnd (List.nodup_singleton _) ?_
      intro x hx1 hx2
      rw [List.mem_map] at hx1
      obtain ⟨u, hu, rfl⟩ := hx1
      simp only [List.map_cons, List.map_nil, List.mem_singleton] at hx2
      exact hfresh u hu hx2

theorem deleteTransaction_preserves (opening : String → ℚ) (tid : String) (s : LedgerState)
    (hInv : BalanceInvariant opening s)
    (hnd : (s.transactions.map Transaction.id).Nodup) :
    BalanceInvariant opening (deleteTransaction tid s).2
      ∧ ((deleteTransaction tid s).2.transactions.map Transaction.id).Nodup := by
  unfold deleteTransaction
  cases hf : s.transactions.find? (fun u => u.id == tid) with
  | none => exact ⟨hInv, hnd⟩
  | some tx =>
    constructor
    · intro a' ha'
      dsimp only [BalanceInvariant] at hInv ⊢
      dsimp only at ha' ⊢
      have hsumI : ∀ accId, typeSum accId TxType.income
            (s.transactions.filter (fun u => u.id != tid))
          = typeSum accId TxType.income s.transactions - contrib accId TxType.income tx :=
        fun accId => typeSum_filter_of_find? accId _ tid _ tx hnd hf
      have hsumE : ∀ accId, typeSum accId TxType.expense
            (s.transactions.filter (fun u => u.id != tid))
          = typeSum accId TxType.expense s.transactions - contrib accId TxType.expense tx :=
        fun accId => typeSum_filter_of_find? accId _ tid _ tx hnd hf
      cases htt : tx.type with
      | income =>
        rw [htt] at ha'
        dsimp only at ha'
        unfold applyBalanceChange at ha'
        rw [List.mem_map] at ha'
        obtain ⟨a, ha, rfl⟩ := ha'
        have hbase := hInv a ha
        by_cases hid : a.id = tx.accountId
        · rw [if_pos hid]
          dsimp only
          rw [hsumI, hsumE]
          have hci : contrib a.id TxType.income tx = tx.amount := by
            unfold contrib; rw [if_pos ⟨hid.symm, htt⟩]
          have hce : contrib a.id TxType.expense tx = 0 := by
            unfold contrib; rw [if_neg (by simp [htt])]
          rw [hci, hce]
          linarith [hbase]
        · rw [if_neg hid]
          rw [hsumI, hsumE]
          have hci : contrib a.id TxType.income tx = 0 := by
            unfold contrib; rw [if_neg (by intro hx; exact hid hx.1.symm)]
          have hce : contrib a.id TxType.expense tx = 0 := by
            unfold contrib; rw [if_neg (by intro hx; exact hid hx.1.symm)]
          rw [hci, hce]
          linarith [hbase]
      | expense =>
        rw [htt] at ha'
        dsimp only at ha'
        unfold applyBalanceChange at ha'
        rw [List.mem_map] at ha'
        obtain ⟨a, ha, rfl⟩ := ha'
        have hbase := hInv a ha
        by_cases hid : a.id = tx.accountId
        · rw [if_pos hid]
          dsimp only
          rw [hsumI, hsumE]
          have hci : contrib a.id TxType.income tx = 0 := by
            unfold contrib; rw [if_neg (by simp [htt])]
          have hce : contrib a.id TxType.expense tx = tx.amount := by
            unfold contrib; rw [if_pos ⟨hid.symm, htt⟩]
          rw [hci, hce]
          linarith [hbase]
        · rw [if_neg hid]
          rw [hsumI, hsumE]
          have hci : contrib a.id TxType.income tx = 0 := by
            unfold contrib; rw [if_neg (by intro hx; exact hid hx.1.symm)]
          have hce : contrib a.id TxType.expense tx = 0 := by
            unfold contrib; rw [if_neg (by intro hx; exact hid hx.1.symm)]
          rw [hci, hce]
          linarith [hbase]
      | transfer =>
        rw [htt] at ha'
        dsimp only at ha'
        have hbase := hInv a' ha'
        rw [hsumI, hsumE]
        have hci : contrib a'.id TxType.income tx = 0 := by
          unfold contrib; rw [if_neg (by simp [htt])]
        have hce : contrib a'.id TxType.expense tx = 0 := by
          unfold contrib; rw [if_neg (by simp [htt])]
        rw [hci, hce]
        linarith [hbase]
    · dsimp only
      exact List.Nodup.sublist (List.Sublist.map _ (List.filter_sublist _)) hnd

theorem applyOp_preserves (opening : String → ℚ) (op : LedgerOp) (s : LedgerState)
    (hop : opOnlyIncomeExpense op = true)
    (hInv : BalanceInvariant opening s)
    (hnd : (s.transactions.map Transaction.id).Nodup) :
    BalanceInvariant opening (applyOp op s)
      ∧ ((applyOp op s).transactions.map Transaction.id).Nodup := by
  cases op with
  | createTx t =>
    have hty : t.type ≠ TxType.transfer := by
      simpa [opOnlyIncomeExpense] using hop
    exact createTransaction_preserves opening t s hty hInv hnd
  | deleteTx tid => exact deleteTransaction_preserves opening tid s hInv hnd

theorem applyOps_preserves (opening : String → ℚ) (ops : List LedgerOp) (s : LedgerState)
    (hops : ∀ op ∈ ops, opOnlyIncomeExpense op = true)
    (hInv : BalanceInvariant opening s)
    (hnd : (s.transactions.map Transaction.id).Nodup) :
    BalanceInvariant opening (applyOps ops s)
      ∧ ((applyOps ops s).transactions.map Transaction.id).Nodup := by
  induction ops generalizing s with
  | nil => exact ⟨hInv, hnd⟩
  | cons op ops ih =>
    have h1 := applyOp_preserves opening op s (hops op (List.mem_cons_self op ops)) hInv hnd
    exact ih (applyOp op s) (fun o ho => hops o (List.mem_cons_of_mem op ho)) h1.1 h1.2

theorem find?_append_of_fresh (l : List Transaction) (t : Transaction)
    (hfresh : ∀ u ∈ l, u.id ≠ t.id) :
    (l ++ [t]).find? (fun u => u.id == t.id) = some t := by
  rw [List.find?_append]
  have h0 : l.find? (fun u => u.id == t.id) = none :=
    List.find?_eq_none.mpr (by intro u hu; simp [hfresh u hu])
  rw [h0]
  simp [List.find?]

theorem filter_append_of_fresh (l : List Transaction) (t : Transaction)
    (hfresh : ∀ u ∈ l, u.id ≠ t.id) :
    (l ++ [t]).filter (fun u => u.id != t.id) = l := by
  rw [List.filter_append]
  have h1 : l.filter (fun u => u.id != t.id) = l :=
    List.filter_eq_self.mpr (by intro u hu; simp [hfresh u hu])
  have h2 : ([t].filter (fun u => u.id != t.id)) = [] := by simp
  rw [h1, h2, List.append_nil]

/-! ### Supporting lemmas: the projection fold -/

theorem projFold_eq_sums (account : Account) (endDate : Date) (l : List RecurringPayment)
    (hty : ∀ p ∈ l, p.type ≠ TxType.transfer) (x y : ℚ) :
    (l.foldl
      (fun (ie : ℚ × ℚ) payment =>
        if payment.accountId != account.id then ie
        else if Date.le payment.nextPaymentDate endDate then
          (if payment.type == TxType.income then (ie.1 + payment.amount, ie.2)
           else (ie.1, ie.2 + payment.amount))
        else ie)
      (x, y))
    = (x + (l.map fun p =>
          if p.accountId = account.id ∧ Date.le p.nextPaymentDate endDate ∧ p.type = .income
          then p.amount else 0).sum,
       y + (l.map fun p =>
          if p.accountId = account.id ∧ Date.le p.nextPaymentDate endDate ∧ p.type = .expense
          then p.amount else 0).sum) := by
  induction l generalizing x y with
  | nil => simp
  | cons p l ih =>
    have hty' : ∀ q ∈ l, q.type ≠ TxType.transfer :=
      fun q hq => hty q (List.mem_cons_of_mem p hq)
    rw [List.foldl_cons, List.map_cons, List.map_cons, List.sum_cons, List.sum_cons]
    by_cases h1 : p.accountId = account.id
    · rw [if_neg (by simp [h1])]
      by_cases h2 : Date.le p.nextPaymentDate endDate
      · rw [if_pos h2]
        cases htp : p.type with
        | transfer => exact absurd htp (hty p (List.mem_cons_self p l))
        | income =>
          rw [if_pos (by simp [htp])]
          rw [ih hty']
          rw [if_pos ⟨h1, h2, rfl⟩, if_neg (by simp)]
          refine Prod.ext ?_ ?_ <;> dsimp only <;> ring
        | expense =>
          rw [if_neg (by simp [htp])]
          rw [ih hty']
          rw [if_neg (by simp), if_pos ⟨h1, h2, rfl⟩]
          refine Prod.ext ?_ ?_ <;> dsimp only <;> ring
      · rw [if_neg h2]
        rw [ih hty']
        rw [if_neg (by simp [h2]), if_neg (by simp [h2])]
        simp
    · rw [if_pos (by simp [h1])]
      rw [ih hty']
      rw [if_neg (by simp [h1]), if_neg (by simp [h1])]
      simp

/-- When the createTransaction write set reports success, it appended the
transaction and adjusted the owning account, and the transaction id was
fresh. -/
theorem createTransaction_ok_eq {t : Transaction} {s : LedgerState}
    (h : (createTransaction t s).1 = Outcome.ok) :
    (createTransaction t s).2
      = { s with
          transactions := s.transactions ++ [t]
          accounts := applyBalanceChange t.accountId
            (if t.type = TxType.income then t.amount else -t.amount) s.accounts }
      ∧ ∀ u ∈ s.transactions, u.id ≠ t.id := by
  unfold createTransaction at h ⊢
  cases hins : insertTransaction t s with
  | none =>
    rw [hins] at h
    exact absurd h (by simp)
  | some s1 =>
    obtain ⟨h1, h2⟩ := insertTransaction_eq_some hins
    subst h1
    exact ⟨rfl, h2⟩

/-- The createTransaction write set either succeeds or throws; it never
produces a validation rejection. -/
theorem createTransaction_not_validationError (t : Transaction) (s : LedgerState) :
    (createTransaction t s).1 ≠ Outcome.validationError := by
  unfold createTransaction
  cases hins : insertTransaction t s with
  | none => simp
  | some s1 => simp

/-- A decision procedure for the balance invariant on concrete states. -/
instance (opening : String → ℚ) (s : LedgerState) : Decidable (BalanceInvariant opening s) := by
  unfold BalanceInvariant; infer_instance

/-! ### Claim C10 -/

/-- C10: every call of the createTransaction operation (POST
/api/transactions) returns an error response and commits no writes: the
handler opens BEGIN, performs the insert and the balance update inside the
open transaction, never issues COMMIT, and reads an undefined variable
before responding, so the committed transaction set and every committed
account balance are unchanged for every input. -/
theorem c10_post_transactions_never_commits (t : Transaction) (s : LedgerState) :
    (postTransactionsHandler t s).1 = Outcome.serverError
      ∧ (postTransactionsHandler t s).2 = s :=
  ⟨rfl, rfl⟩

/-! ### Claim C7 -/

/-- C7 counterexample: advancing the monthly schedule from 2024-01-31 does
not yield the clamped date 2024-02-29 claimed by the specification; the
JavaScript setMonth call does not clamp the day of month. -/
theorem c7_counterexample :
    getNextPaymentDate Freq.monthly ⟨2024, 1, 31⟩ ≠ ⟨2024, 2, 29⟩ := by decide

/-- C7 (amended): advancing a monthly schedule keeps the day component and
lets it overflow into the following month when the target month is shorter,
so a monthly payment due 2024-01-31 is advanced to 2024-03-02, not to
2024-02-29. -/
theorem c7_monthly_advance_amended :
    getNextPaymentDate Freq.monthly ⟨2024, 1, 31⟩ = ⟨2024, 3, 2⟩ := by decide

/-! ### Claim C8 -/

/-- C8 counterexample: the rollback performed by the delete handler is not a
left inverse of schedule advancement on every date: starting from the valid
date 2024-01-31, one monthly advance followed by the rollback lands on
2024-02-02. -/
theorem c8_counterexample :
    (Date.Valid ⟨2024, 1, 31⟩)
      ∧ rollbackPaymentDate Freq.monthly (getNextPaymentDate Freq.monthly ⟨2024, 1, 31⟩)
          ≠ ⟨2024, 1, 31⟩ := by decide

/-- C8 (amended): the delete-handler rollback undoes one advancement for the
weekly frequency on every valid date, and for the monthly and yearly
frequencies on every valid date whose day of month is at most 28; when the
advancement overflows the day into the following month the roundtrip does
not restore the date. -/
theorem c8_rollback_advance_amended (f : Freq) (d : Date) (hv : d.Valid)
    (h : f = Freq.weekly ∨ d.day ≤ 28) :
    rollbackPaymentDate f (getNextPaymentDate f d) = d := by
  cases f with
  | weekly => exact subDays_addDays 7 hv
  | monthly =>
    have hd28 : d.day ≤ 28 := by
      rcases h with h | h
      · exact absurd h (by decide)
      · exact h
    obtain ⟨y, m, day⟩ := d
    obtain ⟨h1, h2, h3, h4⟩ := hv
    dsimp only at h1 h2 h3 h4 hd28
    have hday : ∀ y' m' : Nat, day ≤ daysInMonth y' m' := by
      intro y' m'; have := daysInMonth_ge y' m'; omega
    unfold getNextPaymentDate
    dsimp only
    by_cases hm : m < 12
    · rw [if_pos hm, monthOverflow_of_le (hday _ _)]
      unfold rollbackPaymentDate
      dsimp only
      rw [if_pos (by omega : 2 ≤ m + 1)]
      simp only [Nat.add_sub_cancel]
      rw [monthOverflow_of_le (hday _ _)]
    · rw [if_neg hm, monthOverflow_of_le (hday _ _)]
      unfold rollbackPaymentDate
      dsimp only
      rw [if_neg (by omega : ¬ 2 ≤ 1)]
      simp only [Nat.add_sub_cancel]
      rw [monthOverflow_of_le (hday _ _)]
      simp only [Date.mk.injEq, true_and, and_true]
      omega
  | yearly =>
    have hd28 : d.day ≤ 28 := by
      rcases h with h | h
      · exact absurd h (by decide)
      · exact h
    obtain ⟨y, m, day⟩ := d
    dsimp only at hd28
    have hday : ∀ y' m' : Nat, day ≤ daysInMonth y' m' := by
      intro y' m'; have := daysInMonth_ge y' m'; omega
    unfold getNextPaymentDate
    dsimp only
    rw [monthOverflow_of_le (hday _ _)]
    unfold rollbackPaymentDate
    dsimp only
    simp only [Nat.add_sub_cancel]
    rw [monthOverflow_of_le (hday _ _)]

/-- C8 witness: the amended roundtrip theorem applied at a concrete valid
date for each of its hypotheses. -/
theorem c8_witness :
    (Date.Valid ⟨2024, 2, 28⟩)
      ∧ (Freq.monthly = Freq.weekly ∨ (⟨2024, 2, 28⟩ : Date).day ≤ 28)
      ∧ rollbackPaymentDate Freq.monthly (getNextPaymentDate Freq.monthly ⟨2024, 2, 28⟩)
          = ⟨2024, 2, 28⟩ :=
  ⟨by decide, by decide,
    c8_rollback_advance_amended Freq.monthly ⟨2024, 2, 28⟩ (by decide) (by decide)⟩

/-! ### Claim C9 -/

/-- C9 counterexample: the AccountsSection projected-balance computation does
not restrict the sum to payments of the projected account: an account with a
reset frequency, balance 100 and no recurring payments of its own is
projected at 50 because an expense payment of another account falls before
the boundary, while the specification formula gives 100. -/
theorem c9_counterexample :
    AccountsSection.projectedBalance
        ⟨"a1", 100, some ResetFreq.monthly, some 1⟩
        [⟨"rp1", "Rent", 50, Freq.monthly, "Rent", TxType.expense, ⟨2024, 1, 5⟩, "a2"⟩]
        ⟨2024, 2, 1⟩
      ≠ specProjectedBalance
        ⟨"a1", 100, some ResetFreq.monthly, some 1⟩
        [⟨"rp1", "Rent", 50, Freq.monthly, "Rent", TxType.expense, ⟨2024, 1, 5⟩, "a2"⟩]
        ⟨2024, 2, 1⟩ := by
  have hle : Date.le ⟨2024, 1, 5⟩ ⟨2024, 2, 1⟩ = true := by decide
  unfold AccountsSection.projectedBalance specProjectedBalance
  simp [hle]

/-- C9 (amended): for every account with a reset frequency, the projected
balance computed by the useProjectedBalance hook (which skips payments of
other accounts) equals the current balance plus the income sum minus the
expense sum over exactly the recurring payments that belong to this account
and are due on or before the projection boundary; the AccountsSection
computation instead sums the due payments of every account. The computation
is a pure function of its inputs. -/
theorem c9_projection_amended (account : Account) (payments : List RecurringPayment)
    (endDate : Date) (f : ResetFreq)
    (hfreq : account.frequency = some f)
    (hty : ∀ p ∈ payments, p.type ≠ TxType.transfer) :
    useProjectedBalance account payments endDate
      = specProjectedBalance account payments endDate := by
  unfold useProjectedBalance specProjectedBalance
  rw [hfreq]
  dsimp only
  rw [projFold_eq_sums account endDate payments hty 0 0]
  dsimp only
  ring

/-- C9 witness: the amended projection theorem applied to a concrete account
with one due payment of its own and one due payment of another account. -/
theorem c9_witness :
    ((⟨"a1", 100, some ResetFreq.monthly, some 1⟩ : Account).frequency
        = some ResetFreq.monthly)
      ∧ (∀ p ∈ [(⟨"rpA", "Salary", 200, Freq.monthly, "Salary", TxType.income,
            ⟨2024, 1, 5⟩, "a1"⟩ : RecurringPayment),
          ⟨"rpB", "Rent", 50, Freq.monthly, "Rent", TxType.expense, ⟨2024, 1, 6⟩, "a2"⟩],
          p.type ≠ TxType.transfer)
      ∧ useProjectedBalance ⟨"a1", 100, some ResetFreq.monthly, some 1⟩
          [⟨"rpA", "Salary", 200, Freq.monthly, "Salary", TxType.income, ⟨2024, 1, 5⟩, "a1"⟩,
           ⟨"rpB", "Rent", 50, Freq.monthly, "Rent", TxType.expense, ⟨2024, 1, 6⟩, "a2"⟩]
          ⟨2024, 2, 1⟩
        = specProjectedBalance ⟨"a1", 100, some ResetFreq.monthly, some 1⟩
          [⟨"rpA", "Salary", 200, Freq.monthly, "Salary", TxType.income, ⟨2024, 1, 5⟩, "a1"⟩,
           ⟨"rpB", "Rent", 50, Freq.monthly, "Rent", TxType.expense, ⟨2024, 1, 6⟩, "a2"⟩]
          ⟨2024, 2, 1⟩ :=
  ⟨by decide, by decide,
    c9_projection_amended _ _ _ ResetFreq.monthly (by decide) (by decide)⟩

/-! ### Claim C5 -/

/-- C5: payDebt never drives a debt balance below zero: whenever the debt is
found and the expense leg goes through, the new stored balance of that debt
is exactly max(0, balance - amount), which is nonnegative, including at the
boundary where the amount equals the debt balance. -/
theorem c5_debt_floor (txnId : String) (today : Date) (debtId accountId : String)
    (amount : ℚ) (s : LedgerState) (debt : Debt)
    (hdebt : s.debts.find? (fun d => d.id == debtId) = some debt)
    (hok : (payDebt txnId today debtId accountId amount s).1 = Outcome.ok) :
    (payDebt txnId today debtId accountId amount s).2.debts.find? (fun d => d.id == debtId)
        = some { debt with balance := max 0 (debt.balance - amount) }
      ∧ 0 ≤ (max 0 (debt.balance - amount) : ℚ) := by
  refine ⟨?_, le_max_left 0 _⟩
  unfold payDebt at hok ⊢
  set res := createTransaction
      { id := txnId, accountId := accountId, amount := amount,
        description := "Debt payment", category := "Debt Payment",
        date := today, type := .expense, recurringPaymentId := none } s with hres
  rcases res with ⟨o, s1⟩
  cases o with
  | ok =>
    dsimp only at hok ⊢
    have h1 : (createTransaction
        { id := txnId, accountId := accountId, amount := amount,
          description := "Debt payment", category := "Debt Payment",
          date := today, type := .expense, recurringPaymentId := none } s).1
        = Outcome.ok := by rw [← hres]
    have h2 := (createTransaction_ok_eq h1).1
    rw [← hres] at h2
    dsimp only at h2
    have hdebts : s1.debts = s.debts := by rw [h2]
    rw [hdebts, hdebt]
    dsimp only
    unfold updateDebt
    dsimp only
    rw [hdebts]
    rw [find?_map_update Debt.id debtId
      (fun d => { d with balance := max 0 (debt.balance - amount) }) (fun d => rfl) s.debts]
    rw [hdebt]
    rfl
  | validationError => simp at hok
  | notFound => simp at hok
  | serverError => simp at hok

/-- C5 witness: paying exactly the debt balance from a sufficiently funded
account floors the stored debt balance at zero. -/
theorem c5_witness :
    ((⟨[⟨"a1", 100, none, none⟩], [⟨"d1", 20⟩], [], []⟩ : LedgerState).debts.find?
        (fun d => d.id == "d1") = some ⟨"d1", 20⟩)
      ∧ ((payDebt "t1" ⟨2024, 1, 1⟩ "d1" "a1" 20
          ⟨[⟨"a1", 100, none, none⟩], [⟨"d1", 20⟩], [], []⟩).1 = Outcome.ok)
      ∧ ((payDebt "t1" ⟨2024, 1, 1⟩ "d1" "a1" 20
            ⟨[⟨"a1", 100, none, none⟩], [⟨"d1", 20⟩], [], []⟩).2.debts.find?
            (fun d => d.id == "d1")
          = some ⟨"d1", max 0 ((20 : ℚ) - 20)⟩
        ∧ 0 ≤ (max 0 ((20 : ℚ) - 20) : ℚ)) :=
  ⟨rfl, rfl, c5_debt_floor "t1" ⟨2024, 1, 1⟩ "d1" "a1" 20
    ⟨[⟨"a1", 100, none, none⟩], [⟨"d1", 20⟩], [], []⟩ ⟨"d1", 20⟩ rfl rfl⟩

/-! ### Claim C3 -/

/-- C3 counterexample: transferFunds raises no validation failure and
creates both legs even on a self-transfer and even when the source balance
(10) is below the amount (40): both calls answer ok and leave two new
transactions, where the claim demands a ValidationError and no transactions. -/
theorem c3_counterexample :
    ((transferFunds "t1" "t2" ⟨2024, 1, 1⟩ "a1" "a1" 40 "rent"
        ⟨[⟨"a1", 100, none, none⟩, ⟨"a2", 10, none, none⟩], [], [], []⟩).1 = Outcome.ok)
      ∧ ((transferFunds "t1" "t2" ⟨2024, 1, 1⟩ "a1" "a1" 40 "rent"
        ⟨[⟨"a1", 100, none, none⟩, ⟨"a2", 10, none, none⟩], [], [], []⟩).2.transactions.length
          = 2)
      ∧ ((transferFunds "t1" "t2" ⟨2024, 1, 1⟩ "a2" "a1" 40 "rent"
        ⟨[⟨"a1", 100, none, none⟩, ⟨"a2", 10, none, none⟩], [], [], []⟩).1 = Outcome.ok)
      ∧ ((transferFunds "t1" "t2" ⟨2024, 1, 1⟩ "a2" "a1" 40 "rent"
        ⟨[⟨"a1", 100, none, none⟩, ⟨"a2", 10, none, none⟩], [], [], []⟩).2.transactions.length
          = 2)
      ∧ Outcome.ok ≠ Outcome.validationError :=
  ⟨rfl, rfl, rfl, rfl, by decide⟩

/-- C3 (amended): the self-transfer and insufficient-balance checks live in
the submit handler of the transfer dialog, not in transferFunds: whenever
the two selected accounts coincide, or the source account is found with a
balance below the amount, the handler rejects with a validation failure and
returns the state unchanged, so no balance changes and no transaction is
created on that path. transferFunds itself performs no validation. -/
theorem c3_transfer_validation_amended (id1 id2 : String) (today : Date)
    (fromAccount toAccount : String) (amount : ℚ) (description : String)
    (s : LedgerState)
    (h : fromAccount = toAccount
      ∨ ∃ acc, s.accounts.find? (fun a => a.id == fromAccount) = some acc
          ∧ acc.balance < amount) :
    TransferDialog.handleSubmit id1 id2 today fromAccount toAccount amount description s
      = (Outcome.validationError, s) := by
  unfold TransferDialog.handleSubmit
  rcases h with h | ⟨acc, hfind, hbal⟩
  · rw [if_pos h]
  · by_cases heq : fromAccount = toAccount
    · rw [if_pos heq]
    · rw [if_neg heq, hfind]
      dsimp only
      rw [if_pos hbal]

/-- C3 witness: the amended dialog-validation theorem applied to a concrete
self-transfer. -/
theorem c3_witness :
    (("a1" : String) = "a1"
      ∨ ∃ acc, (⟨[⟨"a1", 100, none, none⟩], [], [], []⟩ : LedgerState).accounts.find?
            (fun a => a.id == "a1") = some acc ∧ acc.balance < 40)
      ∧ TransferDialog.handleSubmit "t1" "t2" ⟨2024, 1, 1⟩ "a1" "a1" 40 "rent"
          ⟨[⟨"a1", 100, none, none⟩], [], [], []⟩
        = (Outcome.validationError, ⟨[⟨"a1", 100, none, none⟩], [], [], []⟩) :=
  ⟨Or.inl rfl,
    c3_transfer_validation_amended "t1" "t2" ⟨2024, 1, 1⟩ "a1" "a1" 40 "rent"
      ⟨[⟨"a1", 100, none, none⟩], [], [], []⟩ (Or.inl rfl)⟩

/-! ### Claim C4 -/

/-- C4 counterexample: payDebt performs no validation and is not atomic: a
payment of 15 from an account holding 10 answers ok instead of failing, and
a payment against an unknown debt id commits the expense transaction while
performing no debt decrement, leaving one new transaction and the debt list
unchanged. -/
theorem c4_counterexample :
    ((payDebt "t1" ⟨2024, 1, 1⟩ "d1" "a1" 15
        ⟨[⟨"a1", 10, none, none⟩], [⟨"d1", 20⟩], [], []⟩).1 = Outcome.ok)
      ∧ Outcome.ok ≠ Outcome.validationError
      ∧ ((payDebt "t1" ⟨2024, 1, 1⟩ "dX" "a1" 5
          ⟨[⟨"a1", 10, none, none⟩], [⟨"d1", 20⟩], [], []⟩).1 = Outcome.ok)
      ∧ ((payDebt "t1" ⟨2024, 1, 1⟩ "dX" "a1" 5
          ⟨[⟨"a1", 10, none, none⟩], [⟨"d1", 20⟩], [], []⟩).2.transactions.length = 1)
      ∧ ((payDebt "t1" ⟨2024, 1, 1⟩ "dX" "a1" 5
          ⟨[⟨"a1", 10, none, none⟩], [⟨"d1", 20⟩], [], []⟩).2.debts = [⟨"d1", 20⟩])
      ∧ ((payDebt "t1" ⟨2024, 1, 1⟩ "dX" "a1" 5
          ⟨[⟨"a1", 10, none, none⟩], [⟨"d1", 20⟩], [], []⟩).2.accounts
          = [⟨"a1", 10 + -5, none, none⟩])
      ∧ ((10 : ℚ) + -5 ≠ 10) :=
  ⟨rfl, by decide, rfl, rfl, rfl, rfl, by norm_num⟩

/-- payDebt never reports a validation failure: its result is the outcome of
the expense write set, which is ok or a thrown error. -/
theorem payDebt_not_validationError (txnId : String) (today : Date)
    (debtId accountId : String) (amount : ℚ) (s : LedgerState) :
    (payDebt txnId today debtId accountId amount s).1 ≠ Outcome.validationError := by
  unfold payDebt
  set res := createTransaction
      { id := txnId, accountId := accountId, amount := amount,
        description := "Debt payment", category := "Debt Payment",
        date := today, type := .expense, recurringPaymentId := none } s with hres
  rcases res with ⟨o, s1⟩
  cases o with
  | ok =>
    dsimp only
    cases s1.debts.find? (fun d => d.id == debtId) <;> simp
  | validationError =>
    have h1 : (createTransaction
        { id := txnId, accountId := accountId, amount := amount,
          description := "Debt payment", category := "Debt Payment",
          date := today, type := .expense, recurringPaymentId := none } s).1
        ≠ Outcome.validationError := createTransaction_not_validationError _ _
    rw [← hres] at h1
    exact absurd rfl h1
  | notFound => simp
  | serverError => simp

/-- C4 (amended): the account-balance and debt-balance checks live in the
submit handler of the pay-debt dialog, not in payDebt: when the selected
account is found, a payment exceeding the account balance is rejected, a
payment exceeding a found debt balance is rejected, and every rejected
submission leaves the state unchanged, so the paying account balance is
unchanged on every validation-failing call. payDebt itself validates
nothing. -/
theorem c4_paydebt_validation_amended (txnId : String) (today : Date)
    (debtId accountId : String) (amount : ℚ) (s : LedgerState) (acc : Account)
    (hacc : s.accounts.find? (fun a => a.id == accountId) = some acc) :
    (acc.balance < amount →
      PayDebtDialog.handleSubmit txnId today debtId accountId amount s
        = (Outcome.validationError, s))
    ∧ (∀ debt, s.debts.find? (fun d => d.id == debtId) = some debt →
        debt.balance < amount →
        PayDebtDialog.handleSubmit txnId today debtId accountId amount s
          = (Outcome.validationError, s))
    ∧ ((PayDebtDialog.handleSubmit txnId today debtId accountId amount s).1
          = Outcome.validationError →
        (PayDebtDialog.handleSubmit txnId today debtId accountId amount s).2 = s) := by
  refine ⟨?_, ?_, ?_⟩
  · intro hbal
    unfold PayDebtDialog.handleSubmit
    rw [hacc]
    dsimp only
    by_cases hz : amount ≤ 0
    · rw [if_pos hz]
    · rw [if_neg hz, if_pos hbal]
  · intro debt hdebt hbal
    unfold PayDebtDialog.handleSubmit
    rw [hacc]
    dsimp only
    by_cases hz : amount ≤ 0
    · rw [if_pos hz]
    · rw [if_neg hz]
      by_cases hab : acc.balance < amount
      · rw [if_pos hab]
      · rw [if_neg hab, hdebt]
        dsimp only
        rw [if_pos hbal]
  · intro hv
    unfold PayDebtDialog.handleSubmit at hv ⊢
    rw [hacc] at hv ⊢
    dsimp only at hv ⊢
    by_cases hz : amount ≤ 0
    · rw [if_pos hz]
    · rw [if_neg hz] at hv ⊢
      by_cases hab : acc.balance < amount
      · rw [if_pos hab]
      · rw [if_neg hab] at hv ⊢
        cases hdebt : s.debts.find? (fun d => d.id == debtId) with
        | some debt =>
          rw [hdebt] at hv
          dsimp only at hv ⊢
          by_cases hdb : debt.balance < amount
          · rw [if_pos hdb]
          · rw [if_neg hdb] at hv ⊢
            exact absurd hv (payDebt_not_validationError txnId today debtId accountId amount s)
        | none =>
          rw [hdebt] at hv
          dsimp only at hv ⊢
          exact absurd hv (payDebt_not_validationError txnId today debtId accountId amount s)

/-- C4 witness: the amended dialog-validation theorem applied to a concrete
overdrawing payment. -/
theorem c4_witness :
    ((⟨[⟨"a1", 10, none, none⟩], [⟨"d1", 20⟩], [], []⟩ : LedgerState).accounts.find?
        (fun a => a.id == "a1") = some ⟨"a1", 10, none, none⟩)
      ∧ ((⟨"a1", 10, none, none⟩ : Account).balance < 15 →
          PayDebtDialog.handleSubmit "t1" ⟨2024, 1, 1⟩ "d1" "a1" 15
            ⟨[⟨"a1", 10, none, none⟩], [⟨"d1", 20⟩], [], []⟩
          = (Outcome.validationError, ⟨[⟨"a1", 10, none, none⟩], [⟨"d1", 20⟩], [], []⟩)) :=
  ⟨rfl,
    (c4_paydebt_validation_amended "t1" ⟨2024, 1, 1⟩ "d1" "a1" 15
      ⟨[⟨"a1", 10, none, none⟩], [⟨"d1", 20⟩], [], []⟩ ⟨"a1", 10, none, none⟩ rfl).1⟩

/-! ### Claim C6 -/

/-- C6 counterexample: the recreate settle variant (AccountDetailDialog)
violates every part of the claim on an income payment: the created
transaction is typed expense instead of carrying the type of the payment,
it carries no recurringPaymentId link, and the settled RecurringPayment
entity is deleted (only a copy under a fresh id survives). -/
theorem c6_counterexample :
    ((AccountDetailDialog.handlePaymentPaid "t1" "rp2" ⟨2024, 2, 1⟩
        ⟨"rp1", "Salary", 1000, Freq.monthly, "Salary", TxType.income, ⟨2024, 1, 15⟩, "a1"⟩
        ⟨[⟨"a1", 100, none, none⟩], [], [],
          [⟨"rp1", "Salary", 1000, Freq.monthly, "Salary", TxType.income,
            ⟨2024, 1, 15⟩, "a1"⟩]⟩).transactions.find? (fun t => t.id == "t1")
      = some ⟨"t1", "a1", 1000, "Salary", "Salary", ⟨2024, 2, 1⟩, TxType.expense, none⟩)
      ∧ TxType.expense ≠ TxType.income
      ∧ ((AccountDetailDialog.handlePaymentPaid "t1" "rp2" ⟨2024, 2, 1⟩
        ⟨"rp1", "Salary", 1000, Freq.monthly, "Salary", TxType.income, ⟨2024, 1, 15⟩, "a1"⟩
        ⟨[⟨"a1", 100, none, none⟩], [], [],
          [⟨"rp1", "Salary", 1000, Freq.monthly, "Salary", TxType.income,
            ⟨2024, 1, 15⟩, "a1"⟩]⟩).recurringPayments.find? (fun p => p.id == "rp1")
      = none)
      ∧ (none : Option String) ≠ some "rp1" :=
  ⟨rfl, by decide, rfl, by decide⟩

/-- C6 (amended): the in-place settle variant (AccountsSection) satisfies the
claim: when the settled payment is stored and the transaction write set goes
through, the new transaction carries the amount, category and type of the
payment and recurringPaymentId = payment.id, and the same payment entity
survives with its nextPaymentDate advanced by exactly one period; the
recreate variant (AccountDetailDialog) instead deletes the entity, recreates
it under a fresh id, and records an unlinked transaction that is always an
expense. -/
theorem c6_settle_inplace_amended (txnId : String) (today : Date)
    (payment : RecurringPayment) (s : LedgerState)
    (hfound : s.recurringPayments.find? (fun p => p.id == payment.id) = some payment)
    (hok : (createTransaction
        { id := txnId, accountId := payment.accountId, amount := payment.amount,
          description := payment.name, category := payment.category,
          date := today, type := payment.type, recurringPaymentId := some payment.id } s).1
      = Outcome.ok) :
    ((AccountsSection.handlePaymentPaid txnId today payment s).transactions.find?
        (fun t => t.id == txnId)
      = some
        { id := txnId, accountId := payment.accountId, amount := payment.amount,
          description := payment.name, category := payment.category,
          date := today, type := payment.type, recurringPaymentId := some payment.id })
    ∧ ((AccountsSection.handlePaymentPaid txnId today payment s).recurringPayments.find?
        (fun p => p.id == payment.id)
      = some { payment with
          nextPaymentDate := getNextPaymentDate payment.frequency payment.nextPaymentDate }) := by
  obtain ⟨hs1, hfresh⟩ := createTransaction_ok_eq hok
  unfold AccountsSection.handlePaymentPaid
  rw [hs1]
  unfold updateRecurringPayment
  dsimp only
  have hany : s.recurringPayments.any (fun p => p.id == payment.id) = true :=
    List.any_eq_true.mpr ⟨payment, List.mem_of_find?_eq_some hfound, by simp⟩
  rw [if_pos hany]
  dsimp only
  constructor
  · exact find?_append_of_fresh s.transactions _ hfresh
  · rw [find?_map_update RecurringPayment.id payment.id
      (fun p => { p with
        nextPaymentDate := getNextPaymentDate payment.frequency payment.nextPaymentDate })
      (fun p => rfl) s.recurringPayments]
    rw [hfound]
    rfl

/-- C6 witness: the amended in-place settle theorem applied to a concrete
stored income payment. -/
theorem c6_witness :
    ((⟨[⟨"a1", 100, none, none⟩], [], [],
        [⟨"rp1", "Salary", 1000, Freq.monthly, "Salary", TxType.income,
          ⟨2024, 1, 15⟩, "a1"⟩]⟩ : LedgerState).recurringPayments.find?
        (fun p => p.id == "rp1")
      = some ⟨"rp1", "Salary", 1000, Freq.monthly, "Salary", TxType.income,
          ⟨2024, 1, 15⟩, "a1"⟩)
    ∧ ((createTransaction
        { id := "t1", accountId := "a1", amount := 1000,
          description := "Salary", category := "Salary",
          date := ⟨2024, 2, 1⟩, type := TxType.income, recurringPaymentId := some "rp1" }
        ⟨[⟨"a1", 100, none, none⟩], [], [],
          [⟨"rp1", "Salary", 1000, Freq.monthly, "Salary", TxType.income,
            ⟨2024, 1, 15⟩, "a1"⟩]⟩).1 = Outcome.ok)
    ∧ (((AccountsSection.handlePaymentPaid "t1" ⟨2024, 2, 1⟩
          ⟨"rp1", "Salary", 1000, Freq.monthly, "Salary", TxType.income,
            ⟨2024, 1, 15⟩, "a1"⟩
          ⟨[⟨"a1", 100, none, none⟩], [], [],
            [⟨"rp1", "Salary", 1000, Freq.monthly, "Salary", TxType.income,
              ⟨2024, 1, 15⟩, "a1"⟩]⟩).transactions.find? (fun t => t.id == "t1")
        = some
          { id := "t1", accountId := "a1", amount := 1000,
            description := "Salary", category := "Salary", date := ⟨2024, 2, 1⟩,
            type := TxType.income, recurringPaymentId := some "rp1" })
      ∧ ((AccountsSection.handlePaymentPaid "t1" ⟨2024, 2, 1⟩
          ⟨"rp1", "Salary", 1000, Freq.monthly, "Salary", TxType.income,
            ⟨2024, 1, 15⟩, "a1"⟩
          ⟨[⟨"a1", 100, none, none⟩], [], [],
            [⟨"rp1", "Salary", 1000, Freq.monthly, "Salary", TxType.income,
              ⟨2024, 1, 15⟩, "a1"⟩]⟩).recurringPayments.find? (fun p => p.id == "rp1")
        = some { (⟨"rp1", "Salary", 1000, Freq.monthly, "Salary", TxType.income,
              ⟨2024, 1, 15⟩, "a1"⟩ : RecurringPayment) with
            nextPaymentDate := getNextPaymentDate Freq.monthly ⟨2024, 1, 15⟩ })) :=
  ⟨rfl, rfl,
    c6_settle_inplace_amended "t1" ⟨2024, 2, 1⟩
      ⟨"rp1", "Salary", 1000, Freq.monthly, "Salary", TxType.income, ⟨2024, 1, 15⟩, "a1"⟩
      ⟨[⟨"a1", 100, none, none⟩], [], [],
        [⟨"rp1", "Salary", 1000, Freq.monthly, "Salary", TxType.income,
          ⟨2024, 1, 15⟩, "a1"⟩]⟩ rfl rfl⟩

/-! ### Claim C2 -/

/-- C2 counterexample: createTransaction followed immediately by
deleteTransaction of the created id is not a full inverse. Deleting a
freshly created recurring-linked transaction rolls the linked payment one
period backwards (2024-03-15 becomes 2024-03-08) although the creation never
advanced it; and for a transfer-typed transaction the creation debits the
account while the deletion restores nothing, leaving the balance at
100 + -30. -/
theorem c2_counterexample :
    ((deleteTransaction "t1" (createTransaction
        ⟨"t1", "a1", 50, "x", "Misc", ⟨2024, 3, 1⟩, TxType.income, some "rp1"⟩
        ⟨[⟨"a1", 100, none, none⟩], [], [],
          [⟨"rp1", "Gym", 50, Freq.weekly, "Gym", TxType.expense,
            ⟨2024, 3, 15⟩, "a1"⟩]⟩).2).2.recurringPayments
      = [⟨"rp1", "Gym", 50, Freq.weekly, "Gym", TxType.expense, ⟨2024, 3, 8⟩, "a1"⟩])
      ∧ ((⟨2024, 3, 8⟩ : Date) ≠ ⟨2024, 3, 15⟩)
      ∧ ((deleteTransaction "t1" (createTransaction
          ⟨"t1", "a1", 30, "x", "Misc", ⟨2024, 1, 1⟩, TxType.transfer, none⟩
          ⟨[⟨"a1", 100, none, none⟩], [], [], []⟩).2).2.accounts
        = [⟨"a1", 100 + -30, none, none⟩])
      ∧ ((100 : ℚ) + -30 ≠ 100) :=
  ⟨rfl, by decide, rfl, by norm_num⟩

/-- C2 (amended): for an income- or expense-typed transaction whose creation
succeeds, createTransaction followed immediately by deleteTransaction of the
created id restores every account balance, the transaction list and the debt
list; but when the transaction carries a recurringPaymentId of a stored
payment, the pair does not restore that payment: its nextPaymentDate ends one
period earlier than before the pair, because the deletion rolls the schedule
back while the creation never advanced it. Only a settle advancement between
the two calls is undone exactly. -/
theorem c2_create_delete_roundtrip_amended (t : Transaction) (s : LedgerState)
    (hty : t.type ≠ TxType.transfer)
    (hok : (createTransaction t s).1 = Outcome.ok) :
    ((deleteTransaction t.id (createTransaction t s).2).2.accounts = s.accounts)
    ∧ ((deleteTransaction t.id (createTransaction t s).2).2.transactions = s.transactions)
    ∧ ((deleteTransaction t.id (createTransaction t s).2).2.debts = s.debts)
    ∧ (t.recurringPaymentId = none →
        (deleteTransaction t.id (createTransaction t s).2).2.recurringPayments
          = s.recurringPayments)
    ∧ (∀ rid rp, t.recurringPaymentId = some rid →
        s.recurringPayments.find? (fun p => p.id == rid) = some rp →
        (deleteTransaction t.id (createTransaction t s).2).2.recurringPayments.find?
            (fun p => p.id == rid)
          = some { rp with
              nextPaymentDate := rollbackPaymentDate rp.frequency rp.nextPaymentDate }) := by
  obtain ⟨hs1, hfresh⟩ := createTransaction_ok_eq hok
  rw [hs1]
  unfold deleteTransaction
  dsimp only
  rw [find?_append_of_fresh s.transactions t hfresh]
  dsimp only
  refine ⟨?_, ?_, rfl, ?_, ?_⟩
  · cases htt : t.type with
    | income =>
      rw [if_pos rfl]
      exact applyBalanceChange_cancel t.accountId t.amount (-t.amount) (by ring) s.accounts
    | expense =>
      rw [if_neg (by simp)]
      exact applyBalanceChange_cancel t.accountId (-t.amount) t.amount (by ring) s.accounts
    | transfer => exact absurd htt hty
  · exact filter_append_of_fresh s.transactions t hfresh
  · intro hnone
    rw [hnone]
  · intro rid rp hsome hfind
    rw [hsome]
    dsimp only
    rw [hfind]
    dsimp only
    rw [find?_map_update RecurringPayment.id rid
      (fun p => { p with
        nextPaymentDate := rollbackPaymentDate rp.frequency rp.nextPaymentDate })
      (fun p => rfl) s.recurringPayments]
    rw [hfind]
    rfl

/-- C2 witness: the amended roundtrip theorem applied to a concrete income
transaction linked to a stored weekly payment. -/
theorem c2_witness :
    ((⟨"t1", "a1", 50, "x", "Misc", ⟨2024, 3, 1⟩, TxType.income,
        some "rp1"⟩ : Transaction).type ≠ TxType.transfer)
    ∧ ((createTransaction
        ⟨"t1", "a1", 50, "x", "Misc", ⟨2024, 3, 1⟩, TxType.income, some "rp1"⟩
        ⟨[⟨"a1", 100, none, none⟩], [], [],
          [⟨"rp1", "Gym", 50, Freq.weekly, "Gym", TxType.expense,
            ⟨2024, 3, 15⟩, "a1"⟩]⟩).1 = Outcome.ok)
    ∧ (((deleteTransaction
          (⟨"t1", "a1", 50, "x", "Misc", ⟨2024, 3, 1⟩, TxType.income,
            some "rp1"⟩ : Transaction).id
          (createTransaction
            ⟨"t1", "a1", 50, "x", "Misc", ⟨2024, 3, 1⟩, TxType.income, some "rp1"⟩
            ⟨[⟨"a1", 100, none, none⟩], [], [],
              [⟨"rp1", "Gym", 50, Freq.weekly, "Gym", TxType.expense,
                ⟨2024, 3, 15⟩, "a1"⟩]⟩).2).2.accounts
        = [⟨"a1", 100, none, none⟩])) :=
  ⟨by decide, rfl,
    (c2_create_delete_roundtrip_amended
      ⟨"t1", "a1", 50, "x", "Misc", ⟨2024, 3, 1⟩, TxType.income, some "rp1"⟩
      ⟨[⟨"a1", 100, none, none⟩], [], [],
        [⟨"rp1", "Gym", 50, Freq.weekly, "Gym", TxType.expense, ⟨2024, 3, 15⟩, "a1"⟩]⟩
      (by decide) rfl).1⟩

/-! ### Claim C1 -/

/-- C1 counterexample: the balance invariant does not survive every
createTransaction call. Creating a transfer-typed transaction (the third
member of the transaction type union) debits the account by its amount
while the income and expense sums both ignore it, so starting from an
account whose balance 100 equals its opening balance, one create call
leaves balance 100 + -30 against an invariant value of 100. -/
theorem c1_counterexample :
    ((⟨[⟨"a1", 100, none, none⟩], [], [], []⟩ : LedgerState).transactions = [])
    ∧ (∀ a ∈ (⟨[⟨"a1", 100, none, none⟩], [], [], []⟩ : LedgerState).accounts,
        a.balance = (fun _ => (100 : ℚ)) a.id)
    ∧ ¬ BalanceInvariant (fun _ => 100)
        (applyOps
          [LedgerOp.createTx
            ⟨"t1", "a1", 30, "x", "Misc", ⟨2024, 1, 1⟩, TxType.transfer, none⟩]
          ⟨[⟨"a1", 100, none, none⟩], [], [], []⟩) := by
  refine ⟨rfl, ?_, ?_⟩
  · intro a ha
    rw [List.mem_singleton] at ha
    subst ha
    rfl
  · intro hinv
    have hstate : applyOps
        [LedgerOp.createTx
          ⟨"t1", "a1", 30, "x", "Misc", ⟨2024, 1, 1⟩, TxType.transfer, none⟩]
        ⟨[⟨"a1", 100, none, none⟩], [], [], []⟩
        = ⟨[⟨"a1", 100 + -30, none, none⟩], [],
            [⟨"t1", "a1", 30, "x", "Misc", ⟨2024, 1, 1⟩, TxType.transfer, none⟩], []⟩ := rfl
    rw [hstate] at hinv
    have h1 := hinv ⟨"a1", 100 + -30, none, none⟩ (List.mem_singleton.mpr rfl)
    simp [typeSum, contrib] at h1

/-- C1 (amended): for every account, after any sequence of createTransaction
and deleteTransaction calls in which every created transaction is typed
income or expense, the stored balance equals the opening balance plus the
sum of the amounts of the currently undeleted income transactions of that
account minus the sum of the amounts of its currently undeleted expense
transactions; a transfer-typed create breaks the equality because the
handler debits any non-income type while the sums ignore it. -/
theorem c1_balance_invariant_amended (opening : String → ℚ) (s0 : LedgerState)
    (ops : List LedgerOp)
    (hstart : s0.transactions = [])
    (hopen : ∀ a ∈ s0.accounts, a.balance = opening a.id)
    (hops : ∀ op ∈ ops, opOnlyIncomeExpense op = true) :
    BalanceInvariant opening (applyOps ops s0) := by
  have hInv0 : BalanceInvariant opening s0 := by
    intro a ha
    rw [hstart, typeSum_nil, typeSum_nil, hopen a ha]
    ring
  have hnd0 : (s0.transactions.map Transaction.id).Nodup := by
    rw [hstart]
    exact List.nodup_nil
  exact (applyOps_preserves opening ops s0 hops hInv0 hnd0).1

/-- C1 witness: the amended invariant theorem applied to a concrete account
and a concrete sequence of one income create, its delete, and one expense
create. -/
theorem c1_witness :
    ((⟨[⟨"a1", 100, none, none⟩], [], [], []⟩ : LedgerState).transactions = [])
    ∧ (∀ a ∈ (⟨[⟨"a1", 100, none, none⟩], [], [], []⟩ : LedgerState).accounts,
        a.balance = (fun _ => (100 : ℚ)) a.id)
    ∧ (∀ op ∈ [LedgerOp.createTx
          ⟨"t1", "a1", 50, "pay", "Salary", ⟨2024, 1, 1⟩, TxType.income, none⟩,
        LedgerOp.deleteTx "t1",
        LedgerOp.createTx
          ⟨"t2", "a1", 30, "food", "Groceries", ⟨2024, 1, 2⟩, TxType.expense, none⟩],
        opOnlyIncomeExpense op = true)
    ∧ BalanceInvariant (fun _ => 100)
        (applyOps
          [LedgerOp.createTx
            ⟨"t1", "a1", 50, "pay", "Salary", ⟨2024, 1, 1⟩, TxType.income, none⟩,
          LedgerOp.deleteTx "t1",
          LedgerOp.createTx
            ⟨"t2", "a1", 30, "food", "Groceries", ⟨2024, 1, 2⟩, TxType.expense, none⟩]
          ⟨[⟨"a1", 100, none, none⟩], [], [], []⟩) :=
  ⟨rfl, by decide, by decide,
    c1_balance_invariant_amended (fun _ => 100) ⟨[⟨"a1", 100, none, none⟩], [], [], []⟩
      [LedgerOp.createTx
        ⟨"t1", "a1", 50, "pay", "Salary", ⟨2024, 1, 1⟩, TxType.income, none⟩,
      LedgerOp.deleteTx "t1",
      LedgerOp.createTx
        ⟨"t2", "a1", 30, "food", "Groceries", ⟨2024, 1, 2⟩, TxType.expense, none⟩]
      rfl (by decide) (by decide)⟩

end Finance
